import Mathlib

/-!
Verification of the term-structure transform layer of the `interest-rates`
repository (`src/transforms/spreads.py`, `src/transforms/term_structure.py`,
`src/transforms/regime.py`).

The transforms are shallowly embedded over exact rational arithmetic:

* a pandas `Timestamp` index entry is a natural number (dates only need an
  ordered, decidable-equality carrier);
* a float cell is `Option ℚ`, with `none` playing the role of `NaN`
  ("no value"); pandas elementwise arithmetic propagates `NaN`, which the
  `optSub` / `optCurvature` helpers mirror;
* a raised Python exception is `Except.error`; the spec's taxonomy
  (`SchemaError` for a missing required column, `ValidationError` for a
  parameter outside its domain) is the `TransformError` type.

The Batteries rational primitives `Rat.add`, `Rat.sub`, `Rat.mul` and
`Rat.inv` are marked `@[irreducible]` upstream, which blocks kernel
evaluation of concrete witnesses; the attribute below restores the
default reducibility for this file only.  Division is written `Rat.div`
(definitionally the field division on `ℚ`), and `ratAbs` / `Rat.floor`
are the executable absolute value and floor (see `ratAbs_eq_abs`).
-/

attribute [local semireducible] Rat.add Rat.sub Rat.mul Rat.inv

/-- Error taxonomy of the spec: a missing required column is a
`schemaError`; a parameter outside its documented domain is a
`validationError` (the Python code raises `ValueError` for both; the
spec distinguishes them and the message text does too). -/

inductive TransformError where
  | schemaError
  | validationError
deriving DecidableEq

deriving instance DecidableEq for Except

/-- Executable absolute value on `ℚ` (agrees with `|q|`, see `ratAbs_eq_abs`). -/

def ratAbs (q : ℚ) : ℚ := if q < 0 then -q else q

/-- Pointwise subtraction with `NaN` propagation, as in pandas
`Series` arithmetic: any missing operand makes the result missing. -/

def optSub (a b : Option ℚ) : Option ℚ :=
  match a, b with
  | some x, some y => some (x - y)
  | _, _ => none

/-- The curvature combination `2*mid - short - long` with `NaN` propagation. -/

def optCurvature (mid short long : Option ℚ) : Option ℚ :=
  match mid, short, long with
  | some m, some s, some l => some (2 * m - s - l)
  | _, _, _ => none

/-- Population variance (denominator `n`, i.e. pandas `ddof=0`): the source's
`std(ddof=0)` is exactly the square root of this quantity.  The embedding
tracks the square so that every value stays inside `ℚ`; since the square
root is strictly monotone on nonnegative reals this loses no distinction
(in particular the `n` versus `n - 1` denominator question is decided
here). -/

def popVariance (xs : List ℚ) : ℚ :=
  let n : ℚ := xs.length
  let mean := Rat.div xs.sum n
  Rat.div ((xs.map (fun x => (x - mean) * (x - mean))).sum) n

/-- Empirical quantile with the linear-interpolation convention used by
pandas `Series.quantile` (`interpolation="linear"`): for the sorted sample
`v_0 ≤ … ≤ v_(k-1)` and `h = q*(k-1)`, the result is
`v_⌊h⌋ + (h - ⌊h⌋) * (v_(⌊h⌋+1) - v_⌊h⌋)`.  An empty sample yields `none`
(the Python code substitutes `float("nan")` in that case). -/

def seriesQuantile (xs : List ℚ) (q : ℚ) : Option ℚ :=
  match xs with
  | [] => none
  | _ =>
    let s := List.insertionSort (fun a b : ℚ => a ≤ b) xs
    let h := q * ((s.length - 1 : ℕ) : ℚ)
    let i := (Rat.floor h).toNat
    let frac := h - Rat.floor h
    let lo := s.getD i 0
    if frac = 0 then some lo else some (lo + frac * (s.getD (i + 1) 0 - lo))

/-! ### Generic list lemmas used throughout -/

/-! ### Curve pivot builder

`_build_curve_pivot` (spreads.py) and `_pivot_curve` (term_structure.py) are
textually identical; both are embedded as `build_curve_pivot`.  A long-form
input row carries its values after pandas coercion: `to_datetime` /
`to_numeric` failures are already `none`.  Rows whose date or maturity is
missing are dropped; duplicate `(date, maturity)` cells are aggregated by
arithmetic mean (`aggfunc="mean"`, which skips missing values); both axes
are sorted ascending; all-missing columns and rows are dropped as by
`pivot_table`'s default `dropna=True`. -/

/-- A long-form input table.  `hasRequiredColumns` records whether the
`date`/`maturity`/`value` columns requested by the caller are all present
(`_validate_columns` raises when not); each row is the coerced
`(date, maturity, value)` triple. -/

structure LongFrame where
  hasRequiredColumns : Bool
  rows : List (Option ℕ × Option ℚ × Option ℚ)
deriving DecidableEq

/-- Sort ascending, then drop duplicates (the distinct sorted key set of a
pivot axis). -/

def sortedDedup {α : Type} [LinearOrder α] (xs : List α) : List α :=
  (List.insertionSort (fun a b => a ≤ b) xs).dedup

/-- Mean-aggregated pivot cell for date `d` and maturity `m` (pandas
`pivot_table(aggfunc="mean")`: the mean of the non-missing values of the
group; a group with no non-missing value stays missing). -/

def pivotCell (valid : List (Option ℕ × Option ℚ × Option ℚ)) (d : ℕ) (m : ℚ) :
    Option ℚ :=
  let vs := (valid.filter
    (fun r => decide (r.1 = some d) && decide (r.2.1 = some m))).filterMap (·.2.2)
  if vs.isEmpty then none else some (Rat.div vs.sum (vs.length : ℚ))

/-- A date × maturity matrix: row index `dates`, column index `cols`,
and the cell matrix in the same order. -/

structure Pivot where
  dates : List ℕ
  cols : List ℚ
  matrix : List (List (Option ℚ))
deriving DecidableEq

/-- Cell lookup by date and maturity column value. -/

def Pivot.cellAt (p : Pivot) (d : ℕ) (m : ℚ) : Option ℚ :=
  match p.dates.findIdx? (fun x => decide (x = d)),
        p.cols.findIdx? (fun x => decide (x = m)) with
  | some i, some j => (p.matrix.getD i []).getD j none
  | _, _ => none

/-- Emptiness in the sense of `DataFrame.empty`: either axis is empty. -/

def Pivot.isEmpty (p : Pivot) : Bool := p.dates.isEmpty || p.cols.isEmpty

def build_curve_pivot (f : LongFrame) : Except TransformError Pivot :=
  if f.hasRequiredColumns then
    let valid := f.rows.filter (fun r => r.1.isSome && r.2.1.isSome)
    let dates0 := sortedDedup (valid.filterMap (·.1))
    let cols0 := sortedDedup (valid.filterMap (·.2.1))
    let cols := cols0.filter (fun m => dates0.any (fun d => (pivotCell valid d m).isSome))
    let dates := dates0.filter (fun d => cols.any (fun m => (pivotCell valid d m).isSome))
    .ok ⟨dates, cols, dates.map (fun d => cols.map (fun m => pivotCell valid d m))⟩
  else .error .schemaError

/-! ### Nearest-maturity resolver

`_nearest_column` (spreads.py) and `_nearest_maturity_column`
(term_structure.py) are the same routine; both are embedded as
`nearest_column`.  `np.argmin` returns the first index attaining the
minimum, modelled by the left fold `nearStep` that replaces the
accumulator only on a strictly smaller distance.  The pivot hands the
resolver its (ascending-sorted) column index; non-numeric columns were
already dropped by the pivot builder, so the column list is a `List ℚ`.
If the best distance strictly exceeds the configured maximum gap the
resolver answers `none` ("unavailable"), likewise when no column exists. -/

def nearStep (target acc x : ℚ) : ℚ :=
  if ratAbs (x - target) < ratAbs (acc - target) then x else acc

def nearest_column (columns : List ℚ) (target : ℚ) (max_maturity_gap : Option ℚ) :
    Option ℚ :=
  match columns with
  | [] => none
  | c :: cs =>
    let nearest := cs.foldl (nearStep target) c
    match max_maturity_gap with
    | none => some nearest
    | some g => if g < ratAbs (nearest - target) then none else some nearest

/-! ### Per-leg series resolution

`_series_for_maturity` (spreads.py) and `_series_for_target_maturity`
(term_structure.py), identical up to argument names: resolve the target
through the nearest-column logic; on success return the resolved column's
series over the pivot's date index together with the used maturity, on
failure an all-missing series with the `NaN` sentinel (`none`) as used
maturity. -/

def series_for_maturity (p : Pivot) (target : ℚ) (max_maturity_gap : Option ℚ) :
    List (Option ℚ) × Option ℚ :=
  match nearest_column p.cols target max_maturity_gap with
  | none => (p.dates.map (fun _ => none), none)
  | some c => (p.dates.map (fun d => p.cellAt d c), some c)

/-! ### Spread calculator (`calculate_spreads`, spreads.py)

A spread definition maps a name to its maturities; the source annotates the
values as 2-tuples but validates the length at run time, so the embedding
uses `List ℚ` for the right-hand sides.  Python compares the sort keys
`(date, spread_name)` lexicographically with strings ordered by code
points, which `strLeB` reproduces. -/

structure SpreadRecord where
  date : ℕ
  spread : String
  value : Option ℚ
  long_maturity_target : ℚ
  short_maturity_target : ℚ
  long_maturity_used : Option ℚ
  short_maturity_used : Option ℚ
deriving DecidableEq, Inhabited

def charCodes (s : String) : List ℕ := s.data.map (fun c => c.toNat)

def nameLeB : List ℕ → List ℕ → Bool
  | [], _ => true
  | _ :: _, [] => false
  | a :: as, b :: bs => if a < b then true else if a = b then nameLeB as bs else false

def strLeB (s1 s2 : String) : Bool := nameLeB (charCodes s1) (charCodes s2)

def spreadRecLe (a b : SpreadRecord) : Prop :=
  a.date < b.date ∨ (a.date = b.date ∧ strLeB a.spread b.spread = true)

instance : DecidableRel spreadRecLe := fun a b => by
  unfold spreadRecLe; exact inferInstance

def DEFAULT_SPREAD_DEFINITIONS : List (String × List ℚ) :=
  [("10y_2y", [10, 2]), ("30y_10y", [30, 10]), ("5y_2y", [5, 2])]

/-- The per-definition loop body of `calculate_spreads`: validate the
definition's arity, resolve both legs, emit one record per pivot date.
Frames are concatenated in definition order; the first malformed
definition aborts the whole call with a `ValidationError`. -/

def spread_frames (p : Pivot) (max_maturity_gap : Option ℚ) :
    List (String × List ℚ) → Except TransformError (List SpreadRecord)
  | [] => .ok []
  | (spread_name, maturities) :: rest =>
    if maturities.length ≠ 2 then .error .validationError
    else
      let long_target := maturities.getD 0 0
      let short_target := maturities.getD 1 0
      let long_leg := series_for_maturity p long_target max_maturity_gap
      let short_leg := series_for_maturity p short_target max_maturity_gap
      let rows := (List.range p.dates.length).map (fun i =>
        SpreadRecord.mk (p.dates.getD i 0) spread_name
          (optSub (long_leg.1.getD i none) (short_leg.1.getD i none))
          long_target short_target long_leg.2 short_leg.2)
      match spread_frames p max_maturity_gap rest with
      | .error e => .error e
      | .ok rs => .ok (rows ++ rs)

/-- Embedding of `calculate_spreads`.  Note the first line of the source:
`definitions = dict(spread_definitions or DEFAULT_SPREAD_DEFINITIONS)` —
in Python an *empty* mapping is falsy, so both `None` and `{}` fall back
to the defaults; the subsequent `if not definitions` early return is dead
code.  The embedding keeps both behaviours exactly. -/

def calculate_spreads (f : LongFrame)
    (spread_definitions : Option (List (String × List ℚ)))
    (max_maturity_gap : Option ℚ) (dropna_values : Bool) :
    Except TransformError (List SpreadRecord) :=
  let definitions := match spread_definitions with
    | none => DEFAULT_SPREAD_DEFINITIONS
    | some ds => if ds.isEmpty then DEFAULT_SPREAD_DEFINITIONS else ds
  if definitions.isEmpty then .ok []
  else
    match build_curve_pivot f with
    | .error e => .error e
    | .ok pivot =>
      if pivot.isEmpty then .ok []
      else
        match spread_frames pivot max_maturity_gap definitions with
        | .error e => .error e
        | .ok recs =>
          let kept := if dropna_values then recs.filter (fun r => r.value.isSome) else recs
          .ok (List.insertionSort spreadRecLe kept)

/-! ### Factor extractor (`extract_level_slope_curvature`, term_structure.py) -/

structure FactorRecord where
  date : ℕ
  level : Option ℚ
  slope : Option ℚ
  curvature : Option ℚ
  level_maturity_used : Option ℚ
  slope_short_maturity_used : Option ℚ
  slope_long_maturity_used : Option ℚ
  curvature_short_maturity_used : Option ℚ
  curvature_mid_maturity_used : Option ℚ
  curvature_long_maturity_used : Option ℚ
deriving DecidableEq, Inhabited

def extract_level_slope_curvature (f : LongFrame)
    (level_maturity slope_short_maturity slope_long_maturity
     curvature_short_maturity curvature_mid_maturity curvature_long_maturity : ℚ)
    (max_maturity_gap : Option ℚ) : Except TransformError (List FactorRecord) :=
  match build_curve_pivot f with
  | .error e => .error e
  | .ok pivot =>
    if pivot.isEmpty then .ok []
    else
      let levelLeg := series_for_maturity pivot level_maturity max_maturity_gap
      let slopeShortLeg := series_for_maturity pivot slope_short_maturity max_maturity_gap
      let slopeLongLeg := series_for_maturity pivot slope_long_maturity max_maturity_gap
      let curveShortLeg := series_for_maturity pivot curvature_short_maturity max_maturity_gap
      let curveMidLeg := series_for_maturity pivot curvature_mid_maturity max_maturity_gap
      let curveLongLeg := series_for_maturity pivot curvature_long_maturity max_maturity_gap
      let recs := (List.range pivot.dates.length).map (fun i =>
        FactorRecord.mk (pivot.dates.getD i 0)
          (levelLeg.1.getD i none)
          (optSub (slopeLongLeg.1.getD i none) (slopeShortLeg.1.getD i none))
          (optCurvature (curveMidLeg.1.getD i none) (curveShortLeg.1.getD i none)
            (curveLongLeg.1.getD i none))
          levelLeg.2 slopeShortLeg.2 slopeLongLeg.2 curveShortLeg.2 curveMidLeg.2
          curveLongLeg.2)
      .ok (List.insertionSort (fun a b => a.date ≤ b.date) recs)

/-! ### Rolling volatility engine (`compute_rolling_volatility`, term_structure.py)

A frame row is an association list from column name to an optional value
(`none` is `NaN`; the value column is already numeric after `to_numeric`).
Sorting follows pandas `sort_values(kind="stable")` over the resolved
group columns plus the date column: lexicographic on the key tuple with
missing values ordered last (`na_position="last"`); `insertionSort` is a
stable sort, as pandas' mergesort is.  Grouping follows
`groupby(dropna=False, sort=False).transform`: rows with equal key tuples
form one group (missing keys compare equal to each other under
`dropna=False`), and each row receives the rolling statistic of its
position inside its own group's value sequence.  As explained at
`popVariance`, the emitted statistic is the square of the source's
`std(ddof=0)`; annualization therefore multiplies by `periods_per_year`
itself (the square of the source's `sqrt(periods_per_year)` factor). -/

abbrev VolRow := List (String × Option ℚ)

def cellOf (r : VolRow) (c : String) : Option ℚ :=
  match r.find? (fun kv => decide (kv.1 = c)) with
  | some kv => kv.2
  | none => none

structure VolFrame where
  columns : List String
  rows : List VolRow
deriving DecidableEq

/-- Strict comparison of optional cells with missing values last. -/

def optValLtB : Option ℚ → Option ℚ → Bool
  | some a, some b => decide (a < b)
  | some _, none => true
  | none, _ => false

/-- Lexicographic weak order on sort-key tuples. -/

def keyLeB : List (Option ℚ) → List (Option ℚ) → Bool
  | [], _ => true
  | _ :: _, [] => true
  | a :: as, b :: bs => optValLtB a b || (decide (a = b) && keyLeB as bs)

/-- One cell of `series.rolling(window=w, min_periods=m).std(ddof=0)` (squared):
the trailing window of `w` positions ending at `i`, its non-missing
observations, the gate `count < m ↦ none`, and otherwise the population
variance of those observations. -/

def rollingAt (xs : List (Option ℚ)) (w m i : ℕ) : Option ℚ :=
  let win := (xs.take (i + 1)).drop (i + 1 - w)
  let obs := win.filterMap id
  if obs.length < m then none else some (popVariance obs)

/-- The body of `compute_rolling_volatility` after parameter validation and
group-column resolution (`resolved` is the list of supplied group columns
actually present in the frame).  The leading check is pandas' own
`Rolling` constructor validation: `series.rolling(window=w, min_periods=m)`
raises `ValueError: min_periods m must be <= window w` whenever an
explicitly supplied `min_periods` exceeds the window (an unset
`min_periods` is set to the window internally and never trips it); the
source constructs that `Rolling` object unconditionally, so the check is
modelled up front. -/

def rolling_core (f : VolFrame) (value_col date_col : String)
    (resolved : List String) (window : ℤ) (min_periods : Option ℤ)
    (annualize : Bool) (periods_per_year : ℚ) :
    Except TransformError (List VolRow × List (Option ℚ)) :=
  if window < min_periods.getD window then .error .validationError else
  let sort_cols := resolved ++ (if date_col ∈ f.columns then [date_col] else [])
  let frame := if sort_cols.isEmpty then f.rows
    else List.insertionSort
      (fun a b => keyLeB (sort_cols.map (cellOf a)) (sort_cols.map (cellOf b)) = true)
      f.rows
  let effective_min_periods := min_periods.getD window
  let w := window.toNat
  let m := effective_min_periods.toNat
  let values := frame.map (fun r => cellOf r value_col)
  let n := frame.length
  let out :=
    if resolved.isEmpty then
      (List.range n).map (fun i => rollingAt values w m i)
    else
      (List.range n).map (fun i =>
        let key := resolved.map (cellOf (frame.getD i []))
        let groupIdx := (List.range n).filter
          (fun j => decide (resolved.map (cellOf (frame.getD j [])) = key))
        let seq := groupIdx.map (fun j => values.getD j none)
        let pos := (groupIdx.filter (fun j => decide (j < i))).length
        rollingAt seq w m pos)
  let out2 := if annualize then out.map (fun o => o.map (fun v => v * periods_per_year))
    else out
  .ok (frame, out2)

/-- Embedding of `compute_rolling_volatility`: validate `window` and an
explicitly supplied `min_periods`, require the value column
(`_validate_columns(data, [value_col])`), silently keep only the supplied
group columns that exist, then run the core (which additionally enforces
pandas' `min_periods ≤ window` rule, see `rolling_core`).  The result is
the sorted frame paired with the output column. -/

def compute_rolling_volatility (f : VolFrame) (value_col date_col : String)
    (group_cols : Option (List String)) (window : ℤ) (min_periods : Option ℤ)
    (annualize : Bool) (periods_per_year : ℚ) :
    Except TransformError (List VolRow × List (Option ℚ)) :=
  if window ≤ 0 then .error .validationError
  else if min_periods.getD 1 ≤ 0 then .error .validationError
  else if value_col ∈ f.columns then
    rolling_core f value_col date_col
      ((group_cols.getD []).filter (fun c => decide (c ∈ f.columns)))
      window min_periods annualize periods_per_year
  else .error .schemaError

/-! ### Regime labeler (`label_regimes`, regime.py)

The input is a frame of `nRows` rows from which the labeler reads three
columns; a column may be absent wholesale (`none`), in which case the
source substitutes `pd.Series(np.nan, index=frame.index)` — an all-missing
series.  The combined-regime test `"unknown" in label` is a substring
test in Python; among the labels the three state functions can produce
(`inverted`, `steep`, `flat`, `unknown_curve`, `low`, `mid`, `high`,
`unknown_level`, `high_vol`, `calm`, `unknown_vol`) the substring occurs
exactly in the `unknown_*` ones, so it is equality with the unknown
constructor of each state type. -/

inductive CurveState where
  | inverted | steep | flat | unknown_curve
deriving DecidableEq

inductive LevelState where
  | low | mid | high | unknown_level
deriving DecidableEq

inductive VolState where
  | high_vol | calm | unknown_vol
deriving DecidableEq

inductive Regime where
  | risk_off | inversion | reflation | tight_policy | volatile | normal | unknown
deriving DecidableEq

structure RegimeRecord where
  curve_regime : CurveState
  level_regime : LevelState
  volatility_regime : VolState
  regime : Regime
deriving DecidableEq

structure RegimeInput where
  nRows : ℕ
  slopeCol : Option (List (Option ℚ))
  levelCol : Option (List (Option ℚ))
  volCol : Option (List (Option ℚ))
deriving DecidableEq

/-- Read cell `i` of a possibly absent column: an absent column reads as
all-missing, exactly like the `pd.Series(np.nan, ...)` substitute. -/

def cellAtCol (col : Option (List (Option ℚ))) (i : ℕ) : Option ℚ :=
  (col.getD []).getD i none

def curve_state (abs_band : ℚ) (v : Option ℚ) : CurveState :=
  match v with
  | none => .unknown_curve
  | some x => if x < -abs_band then .inverted else if abs_band < x then .steep else .flat

def level_state (low_threshold high_threshold : Option ℚ) (v : Option ℚ) : LevelState :=
  match v with
  | none => .unknown_level
  | some x =>
    match low_threshold, high_threshold with
    | some lo, some hi => if x ≤ lo then .low else if hi ≤ x then .high else .mid
    | _, _ => .unknown_level

def vol_state (high_threshold : Option ℚ) (v : Option ℚ) : VolState :=
  match v with
  | none => .unknown_vol
  | some x =>
    match high_threshold with
    | some thr => if thr ≤ x then .high_vol else .calm
    | none => .unknown_vol

/-- The source's `_combined_regime`, with the substring test `"unknown" in s`
rendered as equality with the unknown constructors (see the section
comment). -/

def combined_regime (curve : CurveState) (level_lbl : LevelState) (vol_lbl : VolState) :
    Regime :=
  if curve = .unknown_curve ∨ level_lbl = .unknown_level ∨ vol_lbl = .unknown_vol then
    .unknown
  else if curve = .inverted ∧ vol_lbl = .high_vol then .risk_off
  else if curve = .inverted then .inversion
  else if curve = .steep ∧ level_lbl = .low then .reflation
  else if curve = .flat ∧ level_lbl = .high then .tight_policy
  else if vol_lbl = .high_vol then .volatile
  else .normal

/-- The precedence order exactly as the specification words it: any
sub-label unknown, then inverted with high volatility, then inverted,
then steep with low level, then flat with high level, then high
volatility, otherwise normal.  Stated separately from `combined_regime`
so that agreement between spec and source is a theorem, not a
definition. -/

def spec_combined_regime (c : CurveState) (l : LevelState) (v : VolState) : Regime :=
  if c = .unknown_curve ∨ l = .unknown_level ∨ v = .unknown_vol then .unknown
  else if c = .inverted ∧ v = .high_vol then .risk_off
  else if c = .inverted then .inversion
  else if c = .steep ∧ l = .low then .reflation
  else if c = .flat ∧ l = .high then .tight_policy
  else if v = .high_vol then .volatile
  else .normal

/-- The row-labelling body of `label_regimes` (everything after parameter
validation): quantile thresholds from the non-missing samples, then one
record per row. -/

def label_rows (inp : RegimeInput) (slope_flat_band lowq highq volq : ℚ) :
    List RegimeRecord :=
  let n := inp.nRows
  let slope := (List.range n).map (fun i => cellAtCol inp.slopeCol i)
  let level := (List.range n).map (fun i => cellAtCol inp.levelCol i)
  let vol := (List.range n).map (fun i => cellAtCol inp.volCol i)
  let low_level_threshold := seriesQuantile (level.filterMap id) lowq
  let high_level_threshold := seriesQuantile (level.filterMap id) highq
  let high_vol_threshold := seriesQuantile (vol.filterMap id) volq
  let abs_band := ratAbs slope_flat_band
  (List.range n).map (fun i =>
    let c := curve_state abs_band (slope.getD i none)
    let l := level_state low_level_threshold high_level_threshold (level.getD i none)
    let v := vol_state high_vol_threshold (vol.getD i none)
    RegimeRecord.mk c l v (combined_regime c l v))

/-- Embedding of `label_regimes`: the three quantile parameters are
validated (in source order) to lie in `[0, 1]`; the flat band is *not*
validated — its absolute value is used. -/

def label_regimes (inp : RegimeInput) (slope_flat_band lowq highq volq : ℚ) :
    Except TransformError (List RegimeRecord) :=
  if ¬(0 ≤ lowq ∧ lowq ≤ 1) then .error .validationError
  else if ¬(0 ≤ highq ∧ highq ≤ 1) then .error .validationError
  else if ¬(0 ≤ volq ∧ volq ≤ 1) then .error .validationError
  else .ok (label_rows inp slope_flat_band lowq highq volq)

/-! ### Named column constants and concrete inputs used by the witnesses -/

def valueColName : String := "value"

def dateColName : String := "date"

def maturityColName : String := "maturity_years"

/-- A one-row long-form table: date 0, maturity 2, yield 4. -/

def exOneRowFrame : LongFrame := ⟨true, [(some 0, some 2, some 4)]⟩

/-- The pivot `build_curve_pivot` produces from `exOneRowFrame`. -/

def exOneRowPivot : Pivot := ⟨[0], [2], [[some 4]]⟩

/-- A long-form table whose required columns exist but which has no rows. -/

def exNoRowsFrame : LongFrame := ⟨true, []⟩

/-- One date with yields {2y: 3.5, 5y: 4.0, 10y: 4.5}. -/

def exFactorFrame : LongFrame :=
  ⟨true, [(some 0, some 2, some (mkRat 7 2)), (some 0, some 5, some 4),
          (some 0, some 10, some (mkRat 9 2))]⟩

def exFactorPivot : Pivot := ⟨[0], [2, 5, 10], [[some (mkRat 7 2), some 4, some (mkRat 9 2)]]⟩

def exFactorOut : List FactorRecord :=
  [⟨0, some (mkRat 9 2), some 1, some 0, some 10, some 2, some 10, some 2, some 5, some 10⟩]

/-- A pivot whose only column (3) is farther than the gap from target 0. -/

def exGapPivot : Pivot := ⟨[0], [3], [[some 1]]⟩

/-- Three rows: slope −0.5 / 0.5 / 0.0, level 5 / 2 / 3, volatility 1.5 / 0.3 / 0.8. -/

def exRegimeInput : RegimeInput :=
  ⟨3, some [some (-(mkRat 1 2)), some (mkRat 1 2), some 0],
      some [some 5, some 2, some 3],
      some [some (mkRat 3 2), some (mkRat 3 10), some (mkRat 4 5)]⟩

def exRegimeRecs : List RegimeRecord :=
  [⟨.inverted, .high, .high_vol, .risk_off⟩,
   ⟨.steep, .low, .calm, .reflation⟩,
   ⟨.flat, .mid, .calm, .normal⟩]

/-- Two rows, all three labelling columns absent. -/

def exAbsentInput : RegimeInput := ⟨2, none, none, none⟩

def exVolVals : List (Option ℚ) := [some 1, some 2, some 0, some 4, some 1]

/-- Build a single-column frame from a value series. -/

def volFrameOf (vals : List (Option ℚ)) : VolFrame :=
  ⟨[valueColName], vals.map (fun v => [(valueColName, v)])⟩

def exVolFrame : VolFrame := volFrameOf [some 1, some 2]

/-- The conclusion of the absent-column claim: the call succeeds, and for
each wholesale-absent input column every row gets that column's unknown
sub-label and the combined regime `unknown`. -/

def absent_unknown_prop (inp : RegimeInput) (band lowq highq volq : ℚ) : Prop :=
  label_regimes inp band lowq highq volq = .ok (label_rows inp band lowq highq volq) ∧
  (inp.slopeCol = none → ∀ r ∈ label_rows inp band lowq highq volq,
    r.curve_regime = CurveState.unknown_curve ∧ r.regime = Regime.unknown) ∧
  (inp.levelCol = none → ∀ r ∈ label_rows inp band lowq highq volq,
    r.level_regime = LevelState.unknown_level ∧ r.regime = Regime.unknown) ∧
  (inp.volCol = none → ∀ r ∈ label_rows inp band lowq highq volq,
    r.volatility_regime = VolState.unknown_vol ∧ r.regime = Regime.unknown)

/-- The conclusion of the min-periods gating claim over a single
ungrouped value series (the frame has only the value column, so no
sorting or grouping reorders the series): the call succeeds, returns the
rows unchanged, and position `i` of the output is missing exactly when
the trailing window of `w` positions ending at `i` holds fewer than `m`
non-missing observations, and otherwise is the population-variance
statistic of those observations; an unset `min_periods` behaves as
`min_periods = window`. -/

def rolling_gate_prop (vals : List (Option ℚ)) (w m : ℤ) : Prop :=
  ∃ out,
    compute_rolling_volatility (volFrameOf vals) valueColName dateColName none w
        (some m) false 252 = .ok ((volFrameOf vals).rows, out) ∧
    out.length = vals.length ∧
    (∀ i, i < vals.length →
      out.getD i none =
        (if (((vals.take (i + 1)).drop (i + 1 - w.toNat)).filterMap id).length < m.toNat
         then none
         else some (popVariance (((vals.take (i + 1)).drop (i + 1 - w.toNat)).filterMap id)))) ∧
    compute_rolling_volatility (volFrameOf vals) valueColName dateColName none w
        none false 252
      = compute_rolling_volatility (volFrameOf vals) valueColName dateColName none w
          (some w) false 252

/-- The conclusion of the factor-extraction claim relative to the built
pivot: one output record per pivot date, in the pivot's (ascending) date
order, and per record the level / slope / curvature formulas over the
yields at the resolved maturities together with the recorded used
maturities. -/

def factor_rows_prop (p : Pivot) (out : List FactorRecord)
    (lm ssm slm csm cmm clm : ℚ) (gap : Option ℚ) : Prop :=
  out.length = p.dates.length ∧
  out.map (fun r => r.date) = p.dates ∧
  List.Sorted (· ≤ ·) (out.map (fun r => r.date)) ∧
  ∀ i, i < p.dates.length →
    (out.getD i default).date = p.dates.getD i 0 ∧
    (out.getD i default).level =
      (match nearest_column p.cols lm gap with
       | some c => p.cellAt (p.dates.getD i 0) c
       | none => none) ∧
    (out.getD i default).slope =
      optSub
        (match nearest_column p.cols slm gap with
         | some c => p.cellAt (p.dates.getD i 0) c
         | none => none)
        (match nearest_column p.cols ssm gap with
         | some c => p.cellAt (p.dates.getD i 0) c
         | none => none) ∧
    (out.getD i default).curvature =
      optCurvature
        (match nearest_column p.cols cmm gap with
         | some c => p.cellAt (p.dates.getD i 0) c
         | none => none)
        (match nearest_column p.cols csm gap with
         | some c => p.cellAt (p.dates.getD i 0) c
         | none => none)
        (match nearest_column p.cols clm gap with
         | some c => p.cellAt (p.dates.getD i 0) c
         | none => none) ∧
    (out.getD i default).level_maturity_used = nearest_column p.cols lm gap ∧
    (out.getD i default).slope_short_maturity_used = nearest_column p.cols ssm gap ∧
    (out.getD i default).slope_long_maturity_used = nearest_column p.cols slm gap ∧
    (out.getD i default).curvature_short_maturity_used = nearest_column p.cols csm gap ∧
    (out.getD i default).curvature_mid_maturity_used = nearest_column p.cols cmm gap ∧
    (out.getD i default).curvature_long_maturity_used = nearest_column p.cols clm gap

/-! ### Lemmas and claim theorems -/

/-! ### Lemmas and claim theorems -/

theorem ratAbs_eq_abs (q : ℚ) : ratAbs q = |q| := by
  unfold ratAbs
  rcases lt_or_le q 0 with h | h
  · simp [h, abs_of_neg h]
  · simp [not_lt.mpr h, abs_of_nonneg h]

theorem ratAbs_idem (q : ℚ) : ratAbs (ratAbs q) = ratAbs q := by
  simp [ratAbs_eq_abs, abs_abs]

theorem getD_map_range {β : Type} (n i : ℕ) (g : ℕ → β) (d : β) (hi : i < n) :
    ((List.range n).map g).getD i d = g i := by
  rw [List.getD_eq_getElem?_getD,
    List.getElem?_eq_getElem (by simpa using hi)]
  simp

theorem range_map_getD {α : Type} (l : List α) (d : α) :
    (List.range l.length).map (fun i => l.getD i d) = l := by
  apply List.ext_getElem
  · simp
  · intro i h1 h2
    simp [List.getD_eq_getElem?_getD, List.getElem?_eq_getElem h2]

theorem filterMap_id_map_const_none {α : Type} (l : List α) :
    (l.map (fun _ => (none : Option ℚ))).filterMap id = [] := by
  induction l with
  | nil => rfl
  | cons a l ih => simp [ih]

theorem sortedDedup_sorted {α : Type} [LinearOrder α] (xs : List α) :
    List.Sorted (· ≤ ·) (sortedDedup xs) :=
  List.Pairwise.sublist (List.dedup_sublist _)
    (List.sorted_insertionSort _ xs)

theorem pivot_dates_sorted (f : LongFrame) (p : Pivot)
    (hp : build_curve_pivot f = .ok p) : List.Sorted (· ≤ ·) p.dates := by
  unfold build_curve_pivot at hp
  by_cases hc : f.hasRequiredColumns
  · rw [if_pos hc] at hp
    cases hp
    exact List.Pairwise.sublist (List.filter_sublist _) (sortedDedup_sorted _)
  · rw [if_neg hc] at hp
    cases hp

theorem pivot_cols_sorted (f : LongFrame) (p : Pivot)
    (hp : build_curve_pivot f = .ok p) : List.Sorted (· ≤ ·) p.cols := by
  unfold build_curve_pivot at hp
  by_cases hc : f.hasRequiredColumns
  · rw [if_pos hc] at hp
    cases hp
    exact List.Pairwise.sublist (List.filter_sublist _) (sortedDedup_sorted _)
  · rw [if_neg hc] at hp
    cases hp

theorem nearStep_dist_le_left (t acc x : ℚ) :
    ratAbs (nearStep t acc x - t) ≤ ratAbs (acc - t) := by
  unfold nearStep
  split
  · exact le_of_lt (by assumption)
  · exact le_refl _

theorem nearStep_dist_le_right (t acc x : ℚ) :
    ratAbs (nearStep t acc x - t) ≤ ratAbs (x - t) := by
  unfold nearStep
  split
  · exact le_refl _
  · exact le_of_not_lt (by assumption)

theorem foldl_nearStep_mem (t : ℚ) :
    ∀ (cs : List ℚ) (acc : ℚ), cs.foldl (nearStep t) acc ∈ acc :: cs := by
  intro cs
  induction cs with
  | nil => intro acc; simp
  | cons x cs ih =>
    intro acc
    rw [List.foldl_cons]
    rcases List.mem_cons.mp (ih (nearStep t acc x)) with h1 | h1
    · rw [h1]
      unfold nearStep
      split
      · exact List.mem_cons.mpr (.inr (List.mem_cons_self _ _))
      · exact List.mem_cons_self _ _
    · exact List.mem_cons.mpr (.inr (List.mem_cons.mpr (.inr h1)))

theorem foldl_nearStep_min (t : ℚ) :
    ∀ (cs : List ℚ) (acc : ℚ), ∀ y ∈ acc :: cs,
      ratAbs (cs.foldl (nearStep t) acc - t) ≤ ratAbs (y - t) := by
  intro cs
  induction cs with
  | nil =>
    intro acc y hy
    rcases List.mem_cons.mp hy with h | h
    · rw [h]; simp
    · cases h
  | cons x cs ih =>
    intro acc y hy
    rw [List.foldl_cons]
    have hstep : ratAbs (cs.foldl (nearStep t) (nearStep t acc x) - t)
        ≤ ratAbs (nearStep t acc x - t) :=
      ih (nearStep t acc x) _ (List.mem_cons_self _ _)
    rcases List.mem_cons.mp hy with h | h
    · rw [h]
      exact hstep.trans (nearStep_dist_le_left t acc x)
    · rcases List.mem_cons.mp h with h1 | h1
      · rw [h1]
        exact hstep.trans (nearStep_dist_le_right t acc x)
      · exact ih (nearStep t acc x) y (List.mem_cons.mpr (.inr h1))

theorem foldl_nearStep_tie (t : ℚ) :
    ∀ (cs : List ℚ) (acc : ℚ), (∀ z ∈ cs, acc ≤ z) → List.Sorted (· ≤ ·) cs →
      ∀ y ∈ acc :: cs, ratAbs (y - t) = ratAbs (cs.foldl (nearStep t) acc - t) →
        cs.foldl (nearStep t) acc ≤ y := by
  intro cs
  induction cs with
  | nil =>
    intro acc _ _ y hy _
    rcases List.mem_cons.mp hy with h | h
    · rw [h]; simp
    · cases h
  | cons x cs ih =>
    intro acc hacc hs y hy heq
    have hx_le : ∀ z ∈ cs, x ≤ z := List.rel_of_sorted_cons hs
    have hs' : List.Sorted (· ≤ ·) cs := List.Sorted.of_cons hs
    have hacc' : ∀ z ∈ cs, nearStep t acc x ≤ z := by
      intro z hz
      unfold nearStep
      split
      · exact hx_le z hz
      · exact hacc z (List.mem_cons.mpr (.inr hz))
    rw [List.foldl_cons] at heq ⊢
    have hmin : ratAbs (cs.foldl (nearStep t) (nearStep t acc x) - t)
        ≤ ratAbs (nearStep t acc x - t) :=
      foldl_nearStep_min t cs (nearStep t acc x) _ (List.mem_cons_self _ _)
    rcases List.mem_cons.mp hy with h | h
    · -- y = acc
      by_cases hlt : ratAbs (x - t) < ratAbs (acc - t)
      · exfalso
        have hchain : ratAbs (cs.foldl (nearStep t) (nearStep t acc x) - t)
            ≤ ratAbs (x - t) := hmin.trans (nearStep_dist_le_right t acc x)
        rw [h] at heq
        rw [← heq] at hchain
        exact absurd (lt_of_le_of_lt hchain hlt) (lt_irrefl _)
      · have hkeep : nearStep t acc x = acc := by unfold nearStep; rw [if_neg hlt]
        refine ih (nearStep t acc x) hacc' hs' y ?_ heq
        rw [hkeep, h]
        exact List.mem_cons_self _ _
    · rcases List.mem_cons.mp h with h1 | h1
      · -- y = x
        by_cases hlt : ratAbs (x - t) < ratAbs (acc - t)
        · have hrepl : nearStep t acc x = x := by unfold nearStep; rw [if_pos hlt]
          refine ih (nearStep t acc x) hacc' hs' y ?_ heq
          rw [hrepl, h1]
          exact List.mem_cons_self _ _
        · have hkeep : nearStep t acc x = acc := by unfold nearStep; rw [if_neg hlt]
          have hacc_le : ratAbs (acc - t) ≤ ratAbs (x - t) := le_of_not_lt hlt
          have hmin2 : ratAbs (cs.foldl (nearStep t) (nearStep t acc x) - t)
              ≤ ratAbs (acc - t) := by
            calc ratAbs (cs.foldl (nearStep t) (nearStep t acc x) - t)
                ≤ ratAbs (nearStep t acc x - t) := hmin
              _ = ratAbs (acc - t) := by rw [hkeep]
          rw [h1] at heq ⊢
          have heq_acc : ratAbs (acc - t)
              = ratAbs (cs.foldl (nearStep t) (nearStep t acc x) - t) :=
            le_antisymm (hacc_le.trans (le_of_eq heq)) hmin2
          have hle_acc := ih (nearStep t acc x) hacc' hs' acc
            (by rw [hkeep]; exact List.mem_cons_self _ _) heq_acc
          exact hle_acc.trans (hacc x (List.mem_cons_self _ _))
      · exact ih (nearStep t acc x) hacc' hs' y (List.mem_cons.mpr (.inr h1)) heq

/-- C4: for every non-empty maturity column list and every target, the
nearest-maturity resolver (with no gap configured) returns a column that
minimizes the absolute distance to the target, and on ties it returns
the smallest such column.  The sortedness hypothesis is the pivot
invariant under which the resolver is always invoked (`pivot_cols_sorted`
proves every built pivot satisfies it); `np.argmin` then scans the
candidates in ascending order, so the first minimum is the smallest. -/
theorem nearest_column_argmin_tie_break (cols : List ℚ) (t : ℚ)
    (hne : cols ≠ []) (hs : List.Sorted (· ≤ ·) cols) :
    ∃ b, nearest_column cols t none = some b ∧ b ∈ cols ∧
      (∀ x ∈ cols, ratAbs (b - t) ≤ ratAbs (x - t)) ∧
      (∀ x ∈ cols, ratAbs (x - t) = ratAbs (b - t) → b ≤ x) := by
  cases cols with
  | nil => exact absurd rfl hne
  | cons c cs =>
    refine ⟨cs.foldl (nearStep t) c, rfl, foldl_nearStep_mem t cs c,
      fun x hx => foldl_nearStep_min t cs c x hx,
      fun x hx hex => foldl_nearStep_tie t cs c
        (List.rel_of_sorted_cons hs) (List.Sorted.of_cons hs) x hx hex⟩

theorem nearest_column_argmin_tie_break_witness :
    ([(2 : ℚ), 8] ≠ []) ∧ List.Sorted (· ≤ ·) [(2 : ℚ), 8] ∧
    nearest_column [(2 : ℚ), 8] 5 none = some 2 ∧
    (∃ b, nearest_column [(2 : ℚ), 8] 5 none = some b ∧ b ∈ [(2 : ℚ), 8] ∧
      (∀ x ∈ [(2 : ℚ), 8], ratAbs (b - 5) ≤ ratAbs (x - 5)) ∧
      (∀ x ∈ [(2 : ℚ), 8], ratAbs (x - 5) = ratAbs (b - 5) → b ≤ x)) :=
  ⟨by decide, by decide, by decide,
    nearest_column_argmin_tie_break [(2 : ℚ), 8] 5 (by decide) (by decide)⟩

/-- C5: when no maturity column exists, or every column is strictly
farther from the target than the configured maximum gap (equivalently,
the minimal distance strictly exceeds the gap), the resolver answers
"unavailable" (`none`) and the caller substitutes an all-missing series
for the leg, recording the `NaN` sentinel (`none`) as the used
maturity. -/
theorem nearest_column_max_gap_exclusion (p : Pivot) (t g : ℚ)
    (h : p.cols = [] ∨ ∀ x ∈ p.cols, g < ratAbs (x - t)) :
    nearest_column p.cols t (some g) = none ∧
    series_for_maturity p t (some g) = (p.dates.map (fun _ => none), none) := by
  have hn : nearest_column p.cols t (some g) = none := by
    rcases h with h | h
    · rw [h]; rfl
    · cases hc : p.cols with
      | nil => rfl
      | cons c cs =>
        rw [hc] at h
        have hb := foldl_nearStep_mem t cs c
        show (if g < ratAbs (cs.foldl (nearStep t) c - t) then none
          else some (cs.foldl (nearStep t) c)) = none
        rw [if_pos (h _ hb)]
  refine ⟨hn, ?_⟩
  unfold series_for_maturity
  rw [hn]

theorem nearest_column_max_gap_exclusion_witness :
    (exGapPivot.cols = [] ∨ ∀ x ∈ exGapPivot.cols, 1 < ratAbs (x - 0)) ∧
    (nearest_column exGapPivot.cols 0 (some 1) = none ∧
     series_for_maturity exGapPivot 0 (some 1)
       = (exGapPivot.dates.map (fun _ => none), none)) :=
  ⟨by decide, nearest_column_max_gap_exclusion exGapPivot 0 1 (by decide)⟩

/-- C1: calling `calculate_spreads` with an explicitly empty
spread-definition mapping does NOT return the empty table.  The source
computes `definitions = dict(spread_definitions or DEFAULT_SPREAD_DEFINITIONS)`
and an empty dict is falsy in Python, so `{}` falls back to the default
definitions exactly as `None` does, making the dedicated
`if not definitions: return <empty table>` branch unreachable.  On a
one-row table the call with `{}` therefore returns the three default
spread rows — identical to the call with `None` — and not the empty
table the claim (and the dead branch) promises. -/
theorem calculate_spreads_empty_mapping_uses_defaults :
    calculate_spreads exOneRowFrame (some []) none true
      = calculate_spreads exOneRowFrame none none true ∧
    calculate_spreads exOneRowFrame (some []) none true ≠ .ok [] ∧
    calculate_spreads exOneRowFrame (some []) none true
      = .ok [⟨0, "10y_2y", some 0, 10, 2, some 2, some 2⟩,
             ⟨0, "30y_10y", some 0, 30, 10, some 2, some 2⟩,
             ⟨0, "5y_2y", some 0, 5, 2, some 2, some 2⟩] :=
  ⟨rfl, by decide, by decide⟩

/-- C7 counterexample: an input whose spread definitions contain a
non-2-tuple does not always fail with a `ValidationError` — with the
required columns present but no data rows the pivot is empty, and
`calculate_spreads` returns the empty table before the definition loop
(and hence before the arity check) ever runs. -/
theorem calculate_spreads_malformed_def_empty_pivot_ok :
    calculate_spreads exNoRowsFrame (some [("bad", [1, 2, 3])]) none true = .ok [] := by
  decide

theorem spread_frames_error_of_malformed (p : Pivot) (gap : Option ℚ) :
    ∀ ds : List (String × List ℚ), (∃ d ∈ ds, d.2.length ≠ 2) →
      spread_frames p gap ds = .error .validationError := by
  intro ds
  induction ds with
  | nil =>
    rintro ⟨d, hd, _⟩
    cases hd
  | cons hd tl ih =>
    rintro ⟨d, hmem, hlen⟩
    obtain ⟨spread_name, ms⟩ := hd
    by_cases h2 : ms.length ≠ 2
    · simp [spread_frames, h2]
    · have hbad : ∃ d ∈ tl, d.2.length ≠ 2 := by
        rcases List.mem_cons.mp hmem with h | h
        · exfalso
          rw [h] at hlen
          exact h2 hlen
        · exact ⟨d, h, hlen⟩
      have htl := ih hbad
      simp [spread_frames, h2, htl]

/-- C7 amended: provided the required columns are present and the curve
pivot built from the input is non-empty, a spread definition that is not
exactly a 2-tuple makes `calculate_spreads` fail with a
`ValidationError`.  (With an empty pivot the function returns the empty
table without ever validating the definitions — see the
counterexample.) -/
theorem calculate_spreads_malformed_def_validation_error (f : LongFrame)
    (ds : List (String × List ℚ)) (gap : Option ℚ) (dn : Bool) (p : Pivot)
    (hp : build_curve_pivot f = .ok p) (hne : p.isEmpty = false)
    (hbad : ∃ d ∈ ds, d.2.length ≠ 2) :
    calculate_spreads f (some ds) gap dn = .error .validationError := by
  have hds_ne : ds ≠ [] := by
    rintro rfl
    rcases hbad with ⟨d, hd, _⟩
    cases hd
  have hisEmpty : ds.isEmpty = false := by
    cases ds with
    | nil => exact absurd rfl hds_ne
    | cons a l => rfl
  have herr := spread_frames_error_of_malformed p gap ds hbad
  unfold calculate_spreads
  simp only [hisEmpty, Bool.false_eq_true, if_false, hp, herr]
  rw [if_neg (by simp [hne])]

theorem calculate_spreads_malformed_def_validation_error_witness :
    build_curve_pivot exOneRowFrame = .ok exOneRowPivot ∧
    exOneRowPivot.isEmpty = false ∧
    (∃ d ∈ ([("bad", [1, 2, 3])] : List (String × List ℚ)), d.2.length ≠ 2) ∧
    calculate_spreads exOneRowFrame (some [("bad", [1, 2, 3])]) none true
      = .error .validationError :=
  ⟨by decide, by decide, by decide,
    calculate_spreads_malformed_def_validation_error exOneRowFrame
      [("bad", [1, 2, 3])] none true exOneRowPivot (by decide) (by decide) (by decide)⟩

theorem combined_eq_spec (c : CurveState) (l : LevelState) (v : VolState) :
    combined_regime c l v = spec_combined_regime c l v := by
  cases c <;> cases l <;> cases v <;> rfl

/-- C2: every row of a successful `label_regimes` call carries a combined
regime equal to the first match of the spec's precedence order (any
sub-label unknown → unknown; inverted ∧ high_vol → risk_off; inverted →
inversion; steep ∧ low → reflation; flat ∧ high → tight_policy;
high_vol → volatile; otherwise normal), applied to that row's own three
sub-labels.  `spec_combined_regime` is written from the specification's
wording; `combined_eq_spec` shows it coincides with the source's
`_combined_regime`. -/
theorem label_regimes_combined_precedence (inp : RegimeInput)
    (band lowq highq volq : ℚ) (recs : List RegimeRecord)
    (h : label_regimes inp band lowq highq volq = .ok recs) :
    ∀ r ∈ recs,
      r.regime = spec_combined_regime r.curve_regime r.level_regime r.volatility_regime := by
  unfold label_regimes at h
  split at h
  · exact Except.noConfusion h
  · split at h
    · exact Except.noConfusion h
    · split at h
      · exact Except.noConfusion h
      · have hrecs : label_rows inp band lowq highq volq = recs := by
          injection h
        subst hrecs
        intro r hr
        unfold label_rows at hr
        rcases List.mem_map.mp hr with ⟨i, hi, hrec⟩
        rw [← hrec]
        exact combined_eq_spec _ _ _

theorem label_regimes_combined_precedence_witness :
    label_regimes exRegimeInput (mkRat 1 10) (mkRat 1 5) (mkRat 4 5) (mkRat 7 10)
      = .ok exRegimeRecs ∧
    ∀ r ∈ exRegimeRecs,
      r.regime = spec_combined_regime r.curve_regime r.level_regime r.volatility_regime :=
  ⟨by decide,
    label_regimes_combined_precedence exRegimeInput
      (mkRat 1 10) (mkRat 1 5) (mkRat 4 5) (mkRat 7 10) exRegimeRecs (by decide)⟩

theorem combined_unknown_curve (l : LevelState) (v : VolState) :
    combined_regime .unknown_curve l v = .unknown := by
  simp [combined_regime]

theorem combined_unknown_level (c : CurveState) (v : VolState) :
    combined_regime c .unknown_level v = .unknown := by
  simp [combined_regime]

theorem combined_unknown_vol (c : CurveState) (l : LevelState) :
    combined_regime c l .unknown_vol = .unknown := by
  simp [combined_regime]

/-- C8: `label_regimes` never raises merely because the slope, level or
volatility column is absent (with in-range quantile parameters the result
is always `.ok`), and an absent column behaves as an all-missing series:
its sub-regime is the matching unknown label on every row, and the
combined regime is `unknown` on every row. -/
theorem label_regimes_absent_columns (inp : RegimeInput)
    (band lowq highq volq : ℚ)
    (h1 : 0 ≤ lowq ∧ lowq ≤ 1) (h2 : 0 ≤ highq ∧ highq ≤ 1)
    (h3 : 0 ≤ volq ∧ volq ≤ 1) :
    absent_unknown_prop inp band lowq highq volq := by
  refine ⟨?_, ?_, ?_, ?_⟩
  · unfold label_regimes
    rw [if_neg (not_not_intro h1), if_neg (not_not_intro h2), if_neg (not_not_intro h3)]
  · intro habs r hr
    unfold label_rows at hr
    rcases List.mem_map.mp hr with ⟨i, hi, hrec⟩
    have hcell : ((List.range inp.nRows).map
        (fun i => cellAtCol inp.slopeCol i)).getD i none = none := by
      rw [getD_map_range _ _ _ _ (List.mem_range.mp hi), habs]
      rfl
    rw [← hrec]
    simp only [hcell]
    exact ⟨rfl, combined_unknown_curve _ _⟩
  · intro habs r hr
    unfold label_rows at hr
    rcases List.mem_map.mp hr with ⟨i, hi, hrec⟩
    have hcell : ((List.range inp.nRows).map
        (fun i => cellAtCol inp.levelCol i)).getD i none = none := by
      rw [getD_map_range _ _ _ _ (List.mem_range.mp hi), habs]
      rfl
    rw [← hrec]
    simp only [hcell]
    exact ⟨rfl, combined_unknown_level _ _⟩
  · intro habs r hr
    unfold label_rows at hr
    rcases List.mem_map.mp hr with ⟨i, hi, hrec⟩
    have hcell : ((List.range inp.nRows).map
        (fun i => cellAtCol inp.volCol i)).getD i none = none := by
      rw [getD_map_range _ _ _ _ (List.mem_range.mp hi), habs]
      rfl
    rw [← hrec]
    simp only [hcell]
    exact ⟨rfl, combined_unknown_vol _ _⟩

theorem label_regimes_absent_columns_witness :
    (0 ≤ mkRat 33 100 ∧ mkRat 33 100 ≤ 1) ∧
    (0 ≤ mkRat 67 100 ∧ mkRat 67 100 ≤ 1) ∧
    absent_unknown_prop exAbsentInput (mkRat 1 10) (mkRat 33 100) (mkRat 67 100)
      (mkRat 67 100) :=
  ⟨by decide, by decide,
    label_regimes_absent_columns exAbsentInput (mkRat 1 10) (mkRat 33 100)
      (mkRat 67 100) (mkRat 67 100) (by decide) (by decide) (by decide)⟩

/-- C9: `label_regimes` only ever uses the absolute value of the flat
band (`abs_band = abs(float(slope_flat_band))`), so a call with band `b`
returns exactly the same output as a call with `|b|`; in particular a
negative band is never an error and never an empty or inverted band. -/
theorem label_regimes_band_abs_invariant (inp : RegimeInput)
    (b lowq highq volq : ℚ) :
    label_regimes inp b lowq highq volq = label_regimes inp |b| lowq highq volq := by
  unfold label_regimes
  have hrows : label_rows inp b lowq highq volq = label_rows inp |b| lowq highq volq := by
    unfold label_rows
    rw [← ratAbs_eq_abs, ratAbs_idem]
  rw [hrows]

theorem cellOf_pair (c : String) (v : Option ℚ) : cellOf [(c, v)] c = v := by
  simp [cellOf, List.find?]

/-- C3 counterexample: the claim quantifies over every `min_periods`
`m > 0`, but for `m` strictly greater than the window the source does
not emit "no value" rows — pandas' `Rolling` constructor rejects the
parameters (`ValueError: min_periods 2 must be <= window 1`), so
`compute_rolling_volatility` raises instead of returning a gated series:
on the one-point series with `w = 1`, `m = 2` the call errors, and the
claimed conclusion (`rolling_gate_prop`) is false. -/
theorem compute_rolling_volatility_min_periods_gt_window_errors :
    (0 : ℤ) < 1 ∧ (0 : ℤ) < 2 ∧
    compute_rolling_volatility (volFrameOf [some 1]) valueColName dateColName none 1
        (some 2) false 252 = .error .validationError ∧
    ¬ rolling_gate_prop [some 1] 1 2 := by
  refine ⟨by decide, by decide, by decide, ?_⟩
  intro hprop
  obtain ⟨out, h, -⟩ := hprop
  rw [show compute_rolling_volatility (volFrameOf [some 1]) valueColName dateColName
      none 1 (some 2) false 252 = .error .validationError from by decide] at h
  exact Except.noConfusion h

/-- C3 amended: `compute_rolling_volatility` with window `w > 0` and
`min_periods = m > 0` satisfying `m ≤ w` (pandas' `Rolling` constructor
rejects `min_periods > window`, see the counterexample) gates each
position on the count of non-missing observations in its trailing window
and otherwise emits the population statistic (denominator = observation
count, not count − 1; see `popVariance`); leaving `min_periods` unset is
identical to passing the window size. -/
theorem compute_rolling_volatility_min_periods_gate (vals : List (Option ℚ))
    (w m : ℤ) (hw : 0 < w) (hm : 0 < m) (hmw : m ≤ w) : rolling_gate_prop vals w m := by
  have hval : valueColName ∈ (volFrameOf vals).columns := by
    simp [volFrameOf]
  have h1 : compute_rolling_volatility (volFrameOf vals) valueColName dateColName none w
      (some m) false 252
      = rolling_core (volFrameOf vals) valueColName dateColName [] w (some m) false 252 := by
    unfold compute_rolling_volatility
    rw [if_neg (not_le.mpr hw),
      if_neg (by simp only [Option.getD_some]; exact not_le.mpr hm), if_pos hval]
    rfl
  have h2 : compute_rolling_volatility (volFrameOf vals) valueColName dateColName none w
      (some w) false 252
      = rolling_core (volFrameOf vals) valueColName dateColName [] w (some w) false 252 := by
    unfold compute_rolling_volatility
    rw [if_neg (not_le.mpr hw),
      if_neg (by simp only [Option.getD_some]; exact not_le.mpr hw), if_pos hval]
    rfl
  have h3 : compute_rolling_volatility (volFrameOf vals) valueColName dateColName none w
      none false 252
      = rolling_core (volFrameOf vals) valueColName dateColName [] w none false 252 := by
    unfold compute_rolling_volatility
    rw [if_neg (not_le.mpr hw),
      if_neg (by simp only [Option.getD_none]; decide), if_pos hval]
    rfl
  have hcore : ∀ mp : Option ℤ, mp.getD w ≤ w →
      rolling_core (volFrameOf vals) valueColName dateColName [] w mp false 252
        = .ok ((volFrameOf vals).rows,
            (List.range (volFrameOf vals).rows.length).map
              (fun i => rollingAt
                ((volFrameOf vals).rows.map (fun r => cellOf r valueColName))
                w.toNat (mp.getD w).toNat i)) := by
    intro mp hmp
    unfold rolling_core
    rw [if_neg (not_lt.mpr hmp)]
    rfl
  have hvals : (volFrameOf vals).rows.map (fun r => cellOf r valueColName) = vals := by
    unfold volFrameOf
    rw [List.map_map]
    have : ∀ v ∈ vals, cellOf [(valueColName, v)] valueColName = v := by
      intro v _
      exact cellOf_pair _ _
    calc vals.map (fun v => cellOf [(valueColName, v)] valueColName)
        = vals.map (fun v => v) := List.map_congr_left this
      _ = vals := List.map_id _
  have hlen : (volFrameOf vals).rows.length = vals.length := by
    unfold volFrameOf
    exact List.length_map _ _
  refine ⟨(List.range (volFrameOf vals).rows.length).map
      (fun i => rollingAt ((volFrameOf vals).rows.map (fun r => cellOf r valueColName))
        w.toNat m.toNat i),
    h1.trans (hcore (some m) (by simp only [Option.getD_some]; exact hmw)), ?_, ?_, ?_⟩
  · rw [List.length_map, List.length_range, hlen]
  · intro i hi
    rw [getD_map_range _ _ _ _ (by rw [hlen]; exact hi), hvals]
    rfl
  · exact (h3.trans (hcore none (by simp))).trans
      ((h2.trans (hcore (some w) (by simp))).symm)

theorem compute_rolling_volatility_min_periods_gate_witness :
    (0 : ℤ) < 5 ∧ (5 : ℤ) ≤ 5 ∧
    rolling_gate_prop exVolVals 5 5 ∧
    compute_rolling_volatility (volFrameOf exVolVals) valueColName dateColName none 5
        (some 5) false 252
      = .ok ((volFrameOf exVolVals).rows,
          [none, none, none, none, some (popVariance [1, 2, 0, 4, 1])]) :=
  ⟨by decide, by decide,
    compute_rolling_volatility_min_periods_gate exVolVals 5 5 (by decide) (by decide)
      (by decide), by decide⟩

/-- C10: supplied group columns that are absent from the frame are
silently dropped — the call behaves exactly as if the group list had
been pre-filtered to the present columns — and when none of them is
present the result coincides with the ungrouped call (one global rolling
series). -/
theorem compute_rolling_volatility_ignores_missing_group_cols
    (f : VolFrame) (vcol dcol : String) (gs : List String) (w : ℤ)
    (mp : Option ℤ) (ann : Bool) (ppy : ℚ) :
    compute_rolling_volatility f vcol dcol (some gs) w mp ann ppy
      = compute_rolling_volatility f vcol dcol
          (some (gs.filter (fun c => decide (c ∈ f.columns)))) w mp ann ppy ∧
    ((∀ g ∈ gs, g ∉ f.columns) →
      compute_rolling_volatility f vcol dcol (some gs) w mp ann ppy
        = compute_rolling_volatility f vcol dcol none w mp ann ppy) := by
  constructor
  · unfold compute_rolling_volatility
    rw [show ((some (gs.filter (fun c => decide (c ∈ f.columns)))).getD []).filter
          (fun c => decide (c ∈ f.columns))
        = ((some gs).getD []).filter (fun c => decide (c ∈ f.columns)) from by
      simp [List.filter_filter]]
  · intro hg
    have h0 : gs.filter (fun c => decide (c ∈ f.columns)) = [] :=
      List.filter_eq_nil_iff.mpr (fun a ha => by simp [hg a ha])
    unfold compute_rolling_volatility
    rw [show ((some gs).getD []).filter (fun c => decide (c ∈ f.columns))
        = ((none : Option (List String)).getD []).filter
            (fun c => decide (c ∈ f.columns)) from by
      simp only [Option.getD_some, Option.getD_none, List.filter_nil]
      exact h0]

theorem compute_rolling_volatility_ignores_missing_group_cols_witness :
    (∀ g ∈ [maturityColName], g ∉ exVolFrame.columns) ∧
    compute_rolling_volatility exVolFrame valueColName dateColName
        (some [maturityColName]) 2 none false 252
      = compute_rolling_volatility exVolFrame valueColName dateColName none 2 none
          false 252 :=
  ⟨by decide,
    (compute_rolling_volatility_ignores_missing_group_cols exVolFrame valueColName
      dateColName [maturityColName] 2 none false 252).2 (by decide)⟩

theorem series_for_maturity_snd (p : Pivot) (t : ℚ) (gap : Option ℚ) :
    (series_for_maturity p t gap).2 = nearest_column p.cols t gap := by
  unfold series_for_maturity
  cases h : nearest_column p.cols t gap <;> rfl

theorem series_for_maturity_getD (p : Pivot) (t : ℚ) (gap : Option ℚ) (i : ℕ)
    (hi : i < p.dates.length) :
    (series_for_maturity p t gap).1.getD i none =
      (match nearest_column p.cols t gap with
       | some c => p.cellAt (p.dates.getD i 0) c
       | none => none) := by
  unfold series_for_maturity
  cases h : nearest_column p.cols t gap with
  | none =>
    rw [List.getD_eq_getElem?_getD, List.getElem?_map]
    cases p.dates[i]? <;> rfl
  | some c =>
    have h1 : i < (p.dates.map (fun d => p.cellAt d c)).length := by
      simpa using hi
    rw [List.getD_eq_getElem?_getD, List.getElem?_eq_getElem h1]
    simp only [Option.getD_some, List.getElem_map]
    rw [List.getD_eq_getElem?_getD, List.getElem?_eq_getElem hi]
    rfl

/-- C6: whenever the input builds a non-empty pivot,
`extract_level_slope_curvature` outputs exactly one record per date of
the pivot's row index, in ascending date order, with
`level = yield(level maturity)`, `slope = yield(slope long) − yield(slope
short)` and `curvature = 2·yield(curvature mid) − yield(curvature short)
− yield(curvature long)`, each yield read at the resolved
nearest-maturity column (missing when a leg is unresolved or the cell is
missing). -/
theorem extract_factors_rows (f : LongFrame)
    (lm ssm slm csm cmm clm : ℚ) (gap : Option ℚ) (p : Pivot)
    (out : List FactorRecord)
    (hp : build_curve_pivot f = .ok p) (hne : p.isEmpty = false)
    (hout : extract_level_slope_curvature f lm ssm slm csm cmm clm gap = .ok out) :
    factor_rows_prop p out lm ssm slm csm cmm clm gap := by
  unfold extract_level_slope_curvature at hout
  rw [hp] at hout
  have hout2 : (if p.isEmpty = true then (Except.ok [] : Except TransformError (List FactorRecord))
      else Except.ok (List.insertionSort (fun a b : FactorRecord => a.date ≤ b.date)
        ((List.range p.dates.length).map (fun i =>
          FactorRecord.mk (p.dates.getD i 0)
            ((series_for_maturity p lm gap).1.getD i none)
            (optSub ((series_for_maturity p slm gap).1.getD i none)
              ((series_for_maturity p ssm gap).1.getD i none))
            (optCurvature ((series_for_maturity p cmm gap).1.getD i none)
              ((series_for_maturity p csm gap).1.getD i none)
              ((series_for_maturity p clm gap).1.getD i none))
            (series_for_maturity p lm gap).2 (series_for_maturity p ssm gap).2
            (series_for_maturity p slm gap).2 (series_for_maturity p csm gap).2
            (series_for_maturity p cmm gap).2 (series_for_maturity p clm gap).2))))
      = Except.ok out := hout
  rw [if_neg (by simp [hne])] at hout2
  set recs := (List.range p.dates.length).map (fun i =>
    FactorRecord.mk (p.dates.getD i 0)
      ((series_for_maturity p lm gap).1.getD i none)
      (optSub ((series_for_maturity p slm gap).1.getD i none)
        ((series_for_maturity p ssm gap).1.getD i none))
      (optCurvature ((series_for_maturity p cmm gap).1.getD i none)
        ((series_for_maturity p csm gap).1.getD i none)
        ((series_for_maturity p clm gap).1.getD i none))
      (series_for_maturity p lm gap).2 (series_for_maturity p ssm gap).2
      (series_for_maturity p slm gap).2 (series_for_maturity p csm gap).2
      (series_for_maturity p cmm gap).2 (series_for_maturity p clm gap).2)
    with hrecs
  have hout3 : out = List.insertionSort (fun a b : FactorRecord => a.date ≤ b.date) recs := by
    injection hout2 with h
    exact h.symm
  have hdates : List.Sorted (· ≤ ·) p.dates := pivot_dates_sorted f p hp
  have hmapdate : recs.map (fun r => r.date) = p.dates := by
    rw [hrecs, List.map_map]
    exact range_map_getD p.dates 0
  have hpair : List.Sorted (fun a b : FactorRecord => a.date ≤ b.date) recs := by
    have h := hdates
    rw [← hmapdate] at h
    exact List.pairwise_map.mp h
  have hsorteq : out = recs := hout3.trans (List.Sorted.insertionSort_eq hpair)
  refine ⟨?_, ?_, ?_, ?_⟩
  · rw [hsorteq, hrecs, List.length_map, List.length_range]
  · rw [hsorteq]
    exact hmapdate
  · rw [hsorteq, hmapdate]
    exact hdates
  · intro i hi
    have hgd : out.getD i default = FactorRecord.mk (p.dates.getD i 0)
        ((series_for_maturity p lm gap).1.getD i none)
        (optSub ((series_for_maturity p slm gap).1.getD i none)
          ((series_for_maturity p ssm gap).1.getD i none))
        (optCurvature ((series_for_maturity p cmm gap).1.getD i none)
          ((series_for_maturity p csm gap).1.getD i none)
          ((series_for_maturity p clm gap).1.getD i none))
        (series_for_maturity p lm gap).2 (series_for_maturity p ssm gap).2
        (series_for_maturity p slm gap).2 (series_for_maturity p csm gap).2
        (series_for_maturity p cmm gap).2 (series_for_maturity p clm gap).2 := by
      rw [hsorteq, hrecs]
      exact getD_map_range _ _ _ _ hi
    rw [hgd]
    refine ⟨rfl, ?_, ?_, ?_, ?_, ?_, ?_, ?_, ?_, ?_⟩
    · exact series_for_maturity_getD p lm gap i hi
    · rw [series_for_maturity_getD p slm gap i hi, series_for_maturity_getD p ssm gap i hi]
    · rw [series_for_maturity_getD p cmm gap i hi, series_for_maturity_getD p csm gap i hi,
        series_for_maturity_getD p clm gap i hi]
    · exact series_for_maturity_snd p lm gap
    · exact series_for_maturity_snd p ssm gap
    · exact series_for_maturity_snd p slm gap
    · exact series_for_maturity_snd p csm gap
    · exact series_for_maturity_snd p cmm gap
    · exact series_for_maturity_snd p clm gap

theorem extract_factors_rows_witness :
    build_curve_pivot exFactorFrame = .ok exFactorPivot ∧
    exFactorPivot.isEmpty = false ∧
    extract_level_slope_curvature exFactorFrame 10 2 10 2 5 10 none = .ok exFactorOut ∧
    factor_rows_prop exFactorPivot exFactorOut 10 2 10 2 5 10 none :=
  ⟨by decide, by decide, by decide,
    extract_factors_rows exFactorFrame 10 2 10 2 5 10 none exFactorPivot exFactorOut
      (by decide) (by decide) (by decide)⟩
